import Mathlib

/-!
# texpand: command-line template expansion

A shallow embedding of `src/texpand.go`.

* Go strings are byte sequences (`GoString`), Go `error` values are represented by
  the text their `Error()` method returns.
* The package-level state touched by `main` (the `-h` switch, the `-s` flag, the
  captured `dotMap`, the unparsed arguments and what the flag package prints) is
  passed explicitly in `FlagSet`.
* `os.Exit` ends a run: `main` computes the `Outcome` of a whole run (how the process
  ends: an exit code, or SIGPIPE at a write to a stdout pipe closed at the other end;
  the bytes on stdout and stderr; and the template-related calls it made).
* The Go standard library is not part of the repository. `flag.FlagSet.Parse` is
  transcribed for the two flags the program registers; the functions of
  `text/template` (and the `%q` verb, `flag.PrintDefaults`) are parameters
  collected in `GoLib`.
-/

namespace Texpand

/-! ## Strings, errors, maps -/

/-- A Go string: a sequence of bytes, each byte a natural number. -/
abbrev GoString := List Nat

/-- The bytes of an ASCII literal. -/
def ascii (s : String) : GoString := s.toList.map Char.toNat

/-- A Go `error`, represented by its `Error()` text; `none : Option GoError` is `nil`. -/
abbrev GoError := GoString

/-- A Go `map[string]string`: `none` for an absent key. -/
abbrev DotMap := GoString → Option GoString

/-- The map `make(map[string]string)`. -/
def DotMap.empty : DotMap := fun _ => none

/-- The assignment `m[k] = v`. -/
def DotMap.set (m : DotMap) (k v : GoString) : DotMap :=
  fun k' => if k' = k then some v else m k'

/-- The function `strings.IndexByte(s, c)`: index of the first `c` in `s`, or `-1`. -/
def IndexByte : GoString → Nat → Int
  | [], _ => -1
  | b :: bs, c =>
    if b = c then 0
    else
      let i := IndexByte bs c
      if i < 0 then -1 else i + 1

/-! ## The parts of the Go standard library taken as parameters -/

/-- What `os.ReadFile` returns for each path. -/
abbrev FileSystem := GoString → Except GoError GoString

/-- What `ioutil.ReadAll(r)` returns for a reader `r`: the bytes read and the error, if any. -/
abbrev ReadAllResult := GoString × Option GoError

/-- What the call `t.Execute(os.Stdout, dotMap)` does to the process. Either it returns,
with the bytes it wrote to stdout and its error, if any; or, when stdout is a pipe closed
at the other end, the first write raises SIGPIPE and the Go runtime lets the signal kill
the process, so the call never returns (`out` is what had been written before). -/
inductive ExecResult
  | returned (out : GoString) (err : Option GoError)
  | killed (out : GoString)

/-- The library functions `texpand.go` calls and whose code is outside the repository.
`T` is the type of parsed templates (`*template.Template`). -/
structure GoLib (T : Type) where
  /-- The rendering of a string operand by the `%q` verb (`strconv.Quote`). -/
  quote : GoString → GoString
  /-- The text `flag.PrintDefaults()` writes for the flags `-h` and `-s`. -/
  printDefaults : GoString
  /-- The call `template.New(name).Parse(text)`. -/
  templateParse : GoString → GoString → Except GoError T
  /-- The call `template.ParseFiles(paths...)`. -/
  templateParseFiles : FileSystem → List GoString → Except GoError T
  /-- The call `t.Execute(os.Stdout, dotMap)`, stdout being what the process was given. -/
  templateExecute : T → DotMap → ExecResult

/-! ## `multistringFlag` (texpand.go, lines 13-38) -/

/-- The struct `multistringFlag`. The Go field `parse` is a closure; the variables it
captures (for `-s`: `dotMap`) are the explicit state `σ`. A parse function returns the
Go pair `(string, error)` and the new captured state. -/
structure multistringFlag (σ : Type) where
  values : List GoString
  parse : GoString → σ → (GoString × Option GoError) × σ

/-- The constructor `newMultistringFlag(name, usage, parse)`; a `nil` parse function is
replaced by the identity. The registration `flag.Var(m, name, usage)` is modelled by
`FlagSet` holding the flag. -/
def newMultistringFlag {σ : Type} (_name _usage : GoString)
    (parse : Option (GoString → σ → (GoString × Option GoError) × σ)) : multistringFlag σ :=
  match parse with
  | some p => { values := [], parse := p }
  | none => { values := [], parse := fun s env => ((s, none), env) }

/-- The method `(*multistringFlag).Set(value)`: returned error, updated receiver, updated
captured state. -/
def multistringFlag.Set {σ : Type} (m : multistringFlag σ) (value : GoString) (env : σ) :
    Option GoError × multistringFlag σ × σ :=
  match m.parse value env with
  | ((_, some err), env') => (some err, m, env')
  | ((v, none), env') => (none, { m with values := m.values ++ [v] }, env')

/-! ## The `-s` parse callback (texpand.go, lines 60-67) -/

/-- The closure passed to `newMultistringFlag("s", ...)` in `main`; `dotMap` is its captured
variable. The error is
`fmt.Errorf` of the format `invalid key/value definition %q - it must contain an = sign`
(the `=` between single quotes) and `s`. -/
def sParse (quote : GoString → GoString) (s : GoString) (dotMap : DotMap) :
    (GoString × Option GoError) × DotMap :=
  let i := IndexByte s 61
  if i < 0 then
    (([], some (ascii "invalid key/value definition " ++ quote s ++
        ascii " - it must contain an \x27=\x27 sign")), dotMap)
  else
    ((s, none), dotMap.set (s.take i.toNat) (s.drop (i.toNat + 1)))

/-- The key a `-s` value names, in the words of the specification: the substring before
the first `=`. -/
def keyOf (s : GoString) : GoString := s.takeWhile (fun b => b != 61)

/-- The value a `-s` value names, in the words of the specification: everything after the
first `=`. -/
def valueOf (s : GoString) : GoString := (s.dropWhile (fun b => b != 61)).drop 1

/-- Usage string of the `-s` flag. -/
def sUsage : GoString :=
  ascii "Define a string value associated to a template expansion key.  Format: <key>=<value>."

/-! ## `flag.CommandLine` with the flags `-h` and `-s` -/

/-- State of `flag.CommandLine` and of the variables its flags write to. -/
structure FlagSet where
  /-- The variable `*help` behind the boolean flag `-h`. -/
  help : Bool
  /-- The flag value registered under `-s`. -/
  s : multistringFlag DotMap
  /-- The variable `dotMap` captured by the parse callback of `-s`. -/
  dotMap : DotMap
  /-- Arguments not yet consumed; after `Parse` this is `flag.Args()`. -/
  args : List GoString
  /-- Bytes the flag package itself wrote to its output (stderr). -/
  output : GoString

/-- State after lines 58-69 of `main`: both flags registered, nothing parsed. -/
def FlagSet.init (quote : GoString → GoString) : FlagSet :=
  { help := false
    s := newMultistringFlag (ascii "s") sUsage (some (sParse quote))
    dotMap := DotMap.empty
    args := []
    output := [] }

/-- The function `strconv.ParseBool`. -/
def ParseBool (s : GoString) : Option Bool :=
  if s ∈ [ascii "1", ascii "t", ascii "T", ascii "TRUE", ascii "true", ascii "True"] then some true
  else if s ∈ [ascii "0", ascii "f", ascii "F", ascii "FALSE", ascii "false", ascii "False"] then
    some false
  else none

/-- The method `(*FlagSet).failf`: print the message and a newline to the output, call the
usage function (`flag.Usage = func() {}`: nothing), return the message as an error. -/
def FlagSet.failf (f : FlagSet) (msg : GoString) : (Bool × Option GoError) × FlagSet :=
  ((false, some msg), { f with output := f.output ++ msg ++ [10] })

/-- The error `flag.ErrHelp`. -/
def ErrHelp : GoError := ascii "flag: help requested"

/-- Second half of `(*FlagSet).parseOne`, from the lookup `f.formal[name]` on: the flag
`name`, with the value written after `=` when `hasValue`, is looked up among the formal
flags (the boolean `h` and the value flag `s`) and set. -/
def FlagSet.setFlag (quote : GoString → GoString) (f : FlagSet) (name : GoString)
    (hasValue : Bool) (value : GoString) : (Bool × Option GoError) × FlagSet :=
  if name = ascii "h" then
    -- boolean flag: does not need an argument
    if hasValue then
      match ParseBool value with
      | some b => ((true, none), { f with help := b })
      | none =>
        { f with help := false }.failf
          (ascii "invalid boolean value " ++ quote value ++ ascii " for -" ++ name ++
            ascii ": parse error")
    else ((true, none), { f with help := true })
  else if name = ascii "s" then
    -- it must have a value, which might be the next argument
    let next : Option (GoString × List GoString) :=
      if hasValue then some (value, f.args)
      else
        match f.args with
        | v :: rest => some (v, rest)
        | [] => none
    match next with
    | none => f.failf (ascii "flag needs an argument: -" ++ name)
    | some (value, args') =>
      match f.s.Set value f.dotMap with
      | (some err, s', dotMap') =>
        { f with args := args', s := s', dotMap := dotMap' }.failf
          (ascii "invalid value " ++ quote value ++ ascii " for flag -" ++ name ++
            ascii ": " ++ err)
      | (none, s', dotMap') =>
        ((true, none), { f with args := args', s := s', dotMap := dotMap' })
  else if name = ascii "help" then
    -- undefined flag named help: the usage function is called, nothing is printed
    ((false, some ErrHelp), f)
  else f.failf (ascii "flag provided but not defined: -" ++ name)

/-- The method `(*FlagSet).parseOne` of the Go `flag` package, for a flag set whose
formal flags are the boolean `h` and the value flag `s`. Returns `(seen, err)` and the
new state. -/
def FlagSet.parseOne (quote : GoString → GoString) (f : FlagSet) :
    (Bool × Option GoError) × FlagSet :=
  match f.args with
  | [] => ((false, none), f)
  | s :: rest =>
    if s.length < 2 ∨ s.head? ≠ some 45 then ((false, none), f)
    else
      let numMinuses := if s[1]? = some 45 then 2 else 1
      if numMinuses = 2 ∧ s.length = 2 then
        -- "--" terminates the flags
        ((false, none), { f with args := rest })
      else
        let name := s.drop numMinuses
        if name.length = 0 ∨ name.head? = some 45 ∨ name.head? = some 61 then
          f.failf (ascii "bad flag syntax: " ++ s)
        else
          -- it is a flag; does it have an argument? (an equals sign cannot be first)
          let i := IndexByte (name.drop 1) 61
          if 0 ≤ i then
            { f with args := rest }.setFlag quote (name.take (i.toNat + 1)) true
              (name.drop (i.toNat + 2))
          else { f with args := rest }.setFlag quote name false []

/-- The loop of `(*FlagSet).Parse` under `flag.ContinueOnError`, bounded by `fuel`
iterations. -/
def FlagSet.parseLoop (quote : GoString → GoString) : Nat → FlagSet → Option GoError × FlagSet
  | 0, f => (none, f)
  | fuel + 1, f =>
    match f.parseOne quote with
    | ((true, _), f') => FlagSet.parseLoop quote fuel f'
    | ((false, none), f') => (none, f')
    | ((false, some err), f') => (some err, f')

/-- The call `flag.CommandLine.Parse(arguments)`. Every iteration that continues the loop
consumes an argument, so `arguments.length + 1` iterations are enough
(`parseLoop_fuel`). -/
def FlagSet.Parse (quote : GoString → GoString) (f : FlagSet) (arguments : List GoString) :
    Option GoError × FlagSet :=
  FlagSet.parseLoop quote (arguments.length + 1) { f with args := arguments }

/-- State of the flag set once the parse loop has gone through `n` flag occurrences with
success, `none` if it stops earlier. -/
def FlagSet.after (quote : GoString → GoString) : Nat → FlagSet → Option FlagSet
  | 0, f => some f
  | n + 1, f =>
    match f.parseOne quote with
    | ((true, _), f') => FlagSet.after quote n f'
    | ((false, _), _) => none

/-- The value of the `-s` occurrence at the head of the argument list, when there is one:
the next argument after `-s` or `--s`, the rest of the argument after `-s=` or `--s=`. -/
def sValueAtHead : List GoString → Option GoString
  | [] => none
  | a :: rest =>
    if a = ascii "-s" ∨ a = ascii "--s" then rest.head?
    else if a.take 3 = ascii "-s=" then some (a.drop 3)
    else if a.take 4 = ascii "--s=" then some (a.drop 4)
    else none

/-- Whether the argument is an occurrence of the help flag with a value that switches help
off: `-h=` or `--h=` followed by a value `strconv.ParseBool` reads as false. -/
def isHelpOff (a : GoString) : Bool :=
  (a.take 3 == ascii "-h=" && ParseBool (a.drop 3) == some false) ||
  (a.take 4 == ascii "--h=" && ParseBool (a.drop 4) == some false)

/-- The flag and the captured state after `Set` was called on each value in order, up to
and including the first call that returns an error. -/
def setAll {σ : Type} (m : multistringFlag σ) (env : σ) :
    List GoString → Option GoError × multistringFlag σ × σ
  | [] => (none, m, env)
  | v :: vs =>
    match m.Set v env with
    | (some err, m', env') => (some err, m', env')
    | (none, m', env') => setAll m' env' vs

/-! ## `die`, `parseReader`, `main` (texpand.go, lines 40-101) -/

/-- The template-related calls `main` makes. -/
inductive Event
  /-- The call `template.ParseFiles(a...)` on the given paths. -/
  | parseFiles (paths : List GoString)
  /-- The call `parseReader(os.Stdin, description)`, which reads stdin. -/
  | parseStdin (description : GoString)
  /-- The call `t.Execute(os.Stdout, dotMap)`. -/
  | execute
  deriving DecidableEq

/-- How the process ends: it exits with a code (`os.Exit`, or 0 at the end of `main`), or a
signal kills it and there is no exit code. -/
inductive ExitStatus
  | exited (code : Nat)
  | signaled (signal : Nat)
  deriving DecidableEq

/-- The signal number of SIGPIPE. -/
def SIGPIPE : Nat := 13

/-- What a run of the program leaves behind. -/
structure Outcome where
  status : ExitStatus
  stdout : GoString
  stderr : GoString
  events : List Event

/-- The function `die(code, format, a...)`, applied to the outcome so far; `msg` is the
text `format` and `a` render to. Writes `msg` and a newline to stderr and exits. -/
def die (o : Outcome) (code : Nat) (msg : GoString) : Outcome :=
  { o with stderr := o.stderr ++ msg ++ [10], status := ExitStatus.exited code }

/-- The function `parseReader(r, description)`; `r` is given by what `ioutil.ReadAll(r)`
returns. The result is the Go pair `(*template.Template, error)`. -/
def parseReader {T : Type} (L : GoLib T) (r : ReadAllResult) (description : GoString) :
    Option T × Option GoError :=
  match r with
  | (_, some err) =>
    (none, some (ascii "error when reading from " ++ description ++ ascii " - " ++ err))
  | (templateBytes, none) =>
    match L.templateParse description templateBytes with
    | .error err =>
      (none, some (ascii "error when parsing template read from " ++ description ++
        ascii " - " ++ err))
    | .ok t => (some t, none)

/-- The help block `main` prints for `-h`, with `os.Args[0]` interpolated three times. -/
def helpText (prog : GoString) : GoString :=
  prog ++ ascii " - read a text template and prints it after expanding its content\n\nUsage: " ++
  prog ++ ascii " [<options>] [template file 1 [template file 2 [...]]]\n\nExample:\n  $ echo \x27foo is \x7b\x7b.foo\x7d\x7d, bar is \x7b\x7b.bar\x7d\x7d\x27 | " ++
  prog ++ ascii " -s foo=oof -s bar=rab\n  foo is oof, bar is rab\n\nThe template is read from stdin, or from files passed as command line arguments.\nIts syntax is that of the golang text/template package, documented at https://pkg.go.dev/text/template and it\x27s executed with the dot pointing to a map of string key/values, named the dotmap, defined using the -s flag.\n"

/-- Lines 89-95 of `main`: the template is loaded from the files `a` when there are any,
from stdin otherwise. Returns the pair `(t, err)` and the call made. -/
def loadTemplate {T : Type} (L : GoLib T) (a : List GoString) (stdin : ReadAllResult)
    (fs : FileSystem) : (Option T × Option GoError) × Event :=
  if a.length > 0 then
    (match L.templateParseFiles fs a with
      | .ok t => (some t, none)
      | .error err => (none, some err),
     Event.parseFiles a)
  else (parseReader L stdin (ascii "stdin"), Event.parseStdin (ascii "stdin"))

/-- The function `main`, run with `os.Args = prog :: args`, the given stdin and files.
Writes to stderr are taken to succeed. -/
def main {T : Type} (L : GoLib T) (prog : GoString) (args : List GoString)
    (stdin : ReadAllResult) (fs : FileSystem) : Outcome :=
  match (FlagSet.init L.quote).Parse L.quote args with
  | (some _, f) =>
    die { status := ExitStatus.exited 0, stdout := [], stderr := f.output, events := [] } 2
      (ascii "run with -h for help")
  | (none, f) =>
    if f.help then
      { status := ExitStatus.exited 0, stdout := [],
        stderr := f.output ++ helpText prog ++ L.printDefaults, events := [] }
    else
      match loadTemplate L f.args stdin fs with
      | ((_, some err), ev) =>
        die { status := ExitStatus.exited 0, stdout := [], stderr := f.output,
              events := [ev] } 1 err
      | ((none, none), ev) =>
        -- a nil template without an error: `t.Execute` dereferences nil and the Go
        -- runtime panics (exit status 2); `loadTemplate_not_nil` excludes this case
        { status := ExitStatus.exited 2, stdout := [], stderr := f.output,
          events := [ev, Event.execute] }
      | ((some t, none), ev) =>
        match L.templateExecute t f.dotMap with
        | .killed out =>
          -- SIGPIPE at a write to stdout: the process dies inside `t.Execute`
          { status := ExitStatus.signaled SIGPIPE, stdout := out, stderr := f.output,
            events := [ev, Event.execute] }
        | .returned out (some err) =>
          die { status := ExitStatus.exited 0, stdout := out, stderr := f.output,
                events := [ev, Event.execute] } 1 err
        | .returned out none =>
          { status := ExitStatus.exited 0, stdout := out, stderr := f.output,
            events := [ev, Event.execute] }

/-! ## The fragment of `text/template` made of literal text and `{{.key}}` actions -/

namespace TextTemplate

/-- Nodes of a parsed template, for the two kinds the fragment has: `parse.TextNode`, and
`parse.ActionNode` whose pipeline is one command made of one single-name `parse.FieldNode`. -/
inductive Node
  | text (text : GoString)
  | field (ident : GoString)
  deriving DecidableEq

/-- The lexer predicate `isSpace`, for the two bytes every version of the library accepts
inside an action: space and tab. (Later versions also accept line ends there; templates
with a line end inside an action are outside the fragment.) -/
def isSpace (c : Nat) : Bool := c = 32 || c = 9

/-- ASCII decimal digit. -/
def isDigit (c : Nat) : Bool := 48 ≤ c && c ≤ 57

/-- The lexer predicate `isAlphaNumeric` on ASCII bytes: underscore, letter or digit. -/
def isAlphaNumeric (c : Nat) : Bool :=
  c = 95 || (65 ≤ c && c ≤ 90) || (97 ≤ c && c ≤ 122) || isDigit c

/-- Where the scanner is: in literal text (`lexText`), on the second byte of a left
delimiter, after the left delimiter and before the field (`lexInsideAction`), inside the
name of a field (`lexField`), after the field and before the right delimiter, or on the
second byte of the right delimiter that closes the field `ident`. -/
inductive LexState
  | text (acc : GoString)
  | leftDelim
  | action
  | field (acc : GoString)
  | close (ident : GoString)
  | rightDelim

/-- The text node for the bytes `acc`; the lexer emits no empty text item. -/
def textNode (acc : GoString) : List Node := if acc = [] then [] else [Node.text acc]

/-- Lexing and parsing with the default delimiters, for templates whose actions all have the
form `{{`, spaces, `.name`, spaces, `}}` with an ASCII name. `none` is returned for any
other input (other actions, comments, trim markers, syntax errors): those are outside this
model. -/
def scan : LexState → GoString → Option (List Node)
  | .text acc, [] => some (textNode acc)
  | .text acc, c :: rest =>
    if c = 123 ∧ rest.head? = some 123 then (scan .leftDelim rest).map (textNode acc ++ ·)
    else scan (.text (acc ++ [c])) rest
  | .leftDelim, [] => none
  | .leftDelim, _ :: rest => scan .action rest
  | .action, [] => none
  | .action, c :: rest =>
    if isSpace c then scan .action rest
    else if c = 46 then scan (.field []) rest
    else none
  | .field _, [] => none
  | .field acc, c :: rest =>
    if isAlphaNumeric c then
      if acc = [] ∧ isDigit c then none else scan (.field (acc ++ [c])) rest
    else if acc = [] then none
    else if isSpace c then scan (.close acc) rest
    else if c = 125 ∧ rest.head? = some 125 then
      (scan .rightDelim rest).map (Node.field acc :: ·)
    else none
  | .close _, [] => none
  | .close ident, c :: rest =>
    if isSpace c then scan (.close ident) rest
    else if c = 125 ∧ rest.head? = some 125 then
      (scan .rightDelim rest).map (Node.field ident :: ·)
    else none
  | .rightDelim, [] => none
  | .rightDelim, _ :: rest => scan (.text []) rest

/-- The parse of a template text in the fragment. -/
def parse (text : GoString) : Option (List Node) := scan (.text []) text

/-- What executing one node writes when dot is a `map[string]string`: a text node writes its
text; a field writes the value bound to the key and, under the default `missingkey` option,
`<no value>` for an absent key. -/
def execNode (dot : DotMap) : Node → GoString
  | .text t => t
  | .field ident =>
    match dot ident with
    | some v => v
    | none => ascii "<no value>"

/-- What executing a parsed template of the fragment writes. -/
def exec (nodes : List Node) (dot : DotMap) : GoString := nodes.flatMap (execNode dot)

/-- The library `L` behaves as `text/template` on the fragment: a text the fragment parses
is parsed without error, under any name, and executing the result on a writable stdout
writes what `exec` says and returns no error. -/
def Agrees {T : Type} (L : GoLib T) : Prop :=
  ∀ name text nodes, parse text = some nodes →
    ∃ t, L.templateParse name text = .ok t ∧
      ∀ dot, L.templateExecute t dot = ExecResult.returned (exec nodes dot) none

/-- Lowercase hexadecimal digit. -/
def hexDigit (n : Nat) : Nat := if n < 10 then 48 + n else 87 + n

/-- One byte inside `strconv.Quote` output. -/
def quoteByte (b : Nat) : GoString :=
  if b = 34 then [92, 34]
  else if b = 92 then [92, 92]
  else if 32 ≤ b ∧ b < 127 then [b]
  else if b = 7 then [92, 97]
  else if b = 8 then [92, 98]
  else if b = 12 then [92, 102]
  else if b = 10 then [92, 110]
  else if b = 13 then [92, 114]
  else if b = 9 then [92, 116]
  else if b = 11 then [92, 118]
  else [92, 120, hexDigit (b / 16 % 16), hexDigit (b % 16)]

/-- The function `strconv.Quote` on ASCII strings. Bytes from 128 up are written as `\x`
escapes, which is what `strconv.Quote` does with bytes that are not valid UTF-8. -/
def quoteASCII (s : GoString) : GoString := [34] ++ s.flatMap quoteByte ++ [34]

/-- Reads and parses the files in order, stopping at the first error. -/
def parseEach (fs : FileSystem) : List GoString → Except GoError (List (List Node))
  | [] => .ok []
  | path :: paths =>
    match fs path with
    | .error err => .error err
    | .ok text =>
      match parse text with
      | none => .error (ascii "template: outside the modelled fragment")
      | some nodes =>
        match parseEach fs paths with
        | .error err => .error err
        | .ok more => .ok (nodes :: more)

/-- An instance of the library interface that agrees with `text/template` on the fragment,
used to run the program on concrete inputs. Texts outside the fragment are reported as
errors; `ParseFiles` returns the template of the first file (files sharing a base name,
where Go lets the later one replace the earlier, are not modelled). -/
def fragmentLib : GoLib (List Node) where
  quote := quoteASCII
  printDefaults := ascii "  -h\tPrint this help and exit.\n  -s value\n    \t" ++ sUsage ++ [10]
  templateParse := fun _ text =>
    match parse text with
    | some nodes => .ok nodes
    | none => .error (ascii "template: outside the modelled fragment")
  templateParseFiles := fun fs paths =>
    match parseEach fs paths with
    | .error err => .error err
    | .ok [] => .error (ascii "template: no files named in call to ParseFiles")
    | .ok (nodes :: _) => .ok nodes
  templateExecute := fun nodes dot => ExecResult.returned (exec nodes dot) none

end TextTemplate

/-! ## Facts about `IndexByte` and the `-s` callback -/

theorem IndexByte_of_not_mem (s : GoString) (c : Nat) (h : c ∉ s) : IndexByte s c = -1 := by
  induction s with
  | nil => rfl
  | cons b bs ih =>
    have hb : b ≠ c := fun e => h (by simp [e])
    have hbs : c ∉ bs := fun e => h (by simp [e])
    simp [IndexByte, hb, ih hbs]

theorem IndexByte_of_mem (s : GoString) (c : Nat) (h : c ∈ s) :
    IndexByte s c = ((s.takeWhile (fun b => b != c)).length : Int) := by
  induction s with
  | nil => simp at h
  | cons b bs ih =>
    by_cases hb : b = c
    · simp [IndexByte, hb]
    · have hbs : c ∈ bs := by
        rcases List.mem_cons.1 h with e | e
        · exact absurd e.symm hb
        · exact e
      simp [IndexByte, hb, ih hbs, List.takeWhile_cons]

theorem take_length_takeWhile (s : GoString) (p : Nat → Bool) :
    s.take (s.takeWhile p).length = s.takeWhile p := by
  induction s with
  | nil => rfl
  | cons b bs ih =>
    by_cases hb : p b = true
    · simp [List.takeWhile_cons, hb, ih]
    · simp [List.takeWhile_cons, hb]

theorem drop_length_takeWhile (s : GoString) (p : Nat → Bool) :
    s.drop (s.takeWhile p).length = s.dropWhile p := by
  induction s with
  | nil => rfl
  | cons b bs ih =>
    by_cases hb : p b = true
    · simp [List.takeWhile_cons, List.dropWhile_cons, hb, ih]
    · simp [List.takeWhile_cons, List.dropWhile_cons, hb]

theorem sParse_of_mem (quote : GoString → GoString) (s : GoString) (m : DotMap)
    (h : 61 ∈ s) : sParse quote s m = ((s, none), m.set (keyOf s) (valueOf s)) := by
  have hi := IndexByte_of_mem s 61 h
  have hnn : ¬ IndexByte s 61 < 0 := by rw [hi]; omega
  have hnat : (IndexByte s 61).toNat = (s.takeWhile (fun b => b != 61)).length := by
    rw [hi]; simp
  unfold sParse
  simp only [hnn, if_false, hnat, take_length_takeWhile, keyOf, valueOf]
  rw [← List.drop_drop, drop_length_takeWhile]

theorem sParse_of_not_mem (quote : GoString → GoString) (s : GoString) (m : DotMap)
    (h : 61 ∉ s) : ∃ err, sParse quote s m = (([], some err), m) := by
  have hi := IndexByte_of_not_mem s 61 h
  unfold sParse
  simp [hi]


theorem Set_of_mem (quote : GoString → GoString) (m : multistringFlag DotMap)
    (hm : m.parse = sParse quote) (s : GoString) (dot : DotMap) (h : 61 ∈ s) :
    m.Set s dot =
      (none, { m with values := m.values ++ [s] }, dot.set (keyOf s) (valueOf s)) := by
  simp [multistringFlag.Set, hm, sParse_of_mem quote s dot h]

theorem Set_of_not_mem (quote : GoString → GoString) (m : multistringFlag DotMap)
    (hm : m.parse = sParse quote) (s : GoString) (dot : DotMap) (h : 61 ∉ s) :
    ∃ err, m.Set s dot = (some err, m, dot) := by
  obtain ⟨err, he⟩ := sParse_of_not_mem quote s dot h
  exact ⟨err, by simp [multistringFlag.Set, hm, he]⟩

theorem parseOne_s_next (quote : GoString → GoString) (f : FlagSet) (a v : GoString)
    (rest : List GoString) (ha : a = ascii "-s" ∨ a = ascii "--s")
    (hargs : f.args = a :: v :: rest) :
    f.parseOne quote =
      match f.s.Set v f.dotMap with
      | (some err, s', dotMap') =>
        { f with args := rest, s := s', dotMap := dotMap' }.failf
          (ascii "invalid value " ++ quote v ++ ascii " for flag -s: " ++ err)
      | (none, s', dotMap') =>
        ((true, none), { f with args := rest, s := s', dotMap := dotMap' }) := by
  rcases ha with rfl | rfl <;>
    simp [FlagSet.parseOne, FlagSet.setFlag, hargs, ascii, IndexByte]

theorem parseOne_s_eq (quote : GoString → GoString) (f : FlagSet) (a v : GoString)
    (rest : List GoString) (ha : a = ascii "-s=" ∨ a = ascii "--s=")
    (hargs : f.args = (a ++ v) :: rest) :
    f.parseOne quote =
      match f.s.Set v f.dotMap with
      | (some err, s', dotMap') =>
        { f with args := rest, s := s', dotMap := dotMap' }.failf
          (ascii "invalid value " ++ quote v ++ ascii " for flag -s: " ++ err)
      | (none, s', dotMap') =>
        ((true, none), { f with args := rest, s := s', dotMap := dotMap' }) := by
  rcases ha with rfl | rfl <;>
    simp [FlagSet.parseOne, FlagSet.setFlag, hargs, ascii, IndexByte]

theorem Set_parse {σ : Type} (m : multistringFlag σ) (v : GoString) (env : σ) :
    (m.Set v env).2.1.parse = m.parse := by
  unfold multistringFlag.Set
  split <;> rfl

theorem setValue_seen (f f' : FlagSet) (v msg : GoString) (args' : List GoString)
    (e : Option GoError)
    (h : (match f.s.Set v f.dotMap with
      | (some err, s', dotMap') =>
        { f with args := args', s := s', dotMap := dotMap' }.failf (msg ++ err)
      | (none, s', dotMap') =>
        ((true, none), { f with args := args', s := s', dotMap := dotMap' })) = ((true, e), f')) :
    f'.args = args' ∧ f'.s.parse = f.s.parse ∧ e = none := by
  have hp := Set_parse f.s v f.dotMap
  split at h
  · simp [FlagSet.failf] at h
  · rename_i s' d' hS
    rw [hS] at hp
    simp at h; obtain ⟨h1, h2⟩ := h; subst h2
    exact ⟨rfl, hp, h1.symm⟩

theorem setFlag_seen (quote : GoString → GoString) (f f' : FlagSet) (name value : GoString)
    (hasValue : Bool) (e : Option GoError)
    (h : f.setFlag quote name hasValue value = ((true, e), f')) :
    f'.args.length ≤ f.args.length ∧ f'.s.parse = f.s.parse ∧ e = none := by
  unfold FlagSet.setFlag at h
  by_cases hh : name = ascii "h"
  · rw [if_pos hh] at h
    split_ifs at h
    · split at h
      · simp at h; obtain ⟨h1, h2⟩ := h; subst h2; simp [h1]
      · simp [FlagSet.failf] at h
    · simp at h; obtain ⟨h1, h2⟩ := h; subst h2; simp [h1]
  · rw [if_neg hh] at h
    by_cases hs : name = ascii "s"
    · rw [if_pos hs] at h
      cases hasValue
      · cases hargs : f.args with
        | nil => simp [hargs, FlagSet.failf] at h
        | cons v rest =>
          simp only [hargs, Bool.false_eq_true, if_false, ← List.append_assoc] at h
          have := setValue_seen f f' v _ rest e h
          exact ⟨by rw [this.1]; simp, this.2⟩
      · simp only [if_true, ← List.append_assoc] at h
        have := setValue_seen f f' value _ f.args e h
        exact ⟨by rw [this.1], this.2⟩
    · rw [if_neg hs] at h
      split_ifs at h
      · simp at h
      · simp [FlagSet.failf] at h

theorem parseOne_seen (quote : GoString → GoString) (f f' : FlagSet) (e : Option GoError)
    (h : f.parseOne quote = ((true, e), f')) :
    f'.args.length < f.args.length ∧ f'.s.parse = f.s.parse ∧ e = none := by
  unfold FlagSet.parseOne at h
  split at h
  · simp at h
  · rename_i s rest hargs
    rw [hargs]
    dsimp only at h
    split_ifs at h
    all_goals first
      | (simp [FlagSet.failf] at h; done)
      | exact ⟨Nat.lt_succ_of_le (setFlag_seen quote _ _ _ _ _ _ h).1,
          (setFlag_seen quote _ _ _ _ _ _ h).2⟩


/-! ## The parse loop -/

theorem parseLoop_fuel (quote : GoString → GoString) (n m : Nat) (f : FlagSet)
    (hn : f.args.length < n) (hm : f.args.length < m) :
    FlagSet.parseLoop quote n f = FlagSet.parseLoop quote m f := by
  induction n generalizing m f with
  | zero => omega
  | succ n ih =>
    cases m with
    | zero => omega
    | succ m =>
      unfold FlagSet.parseLoop
      rcases hone : f.parseOne quote with ⟨⟨seen, e⟩, f'⟩
      cases seen with
      | true =>
        have hlt := (parseOne_seen quote f f' e hone).1
        simp only
        exact ih m f' (by omega) (by omega)
      | false => cases e <;> rfl

theorem parseLoop_step (quote : GoString → GoString) (n : Nat) (f f' : FlagSet)
    (e : Option GoError) (hn : f.args.length < n)
    (hone : f.parseOne quote = ((true, e), f')) :
    FlagSet.parseLoop quote n f = FlagSet.parseLoop quote (f'.args.length + 1) f' := by
  have hlt := (parseOne_seen quote f f' e hone).1
  cases n with
  | zero => omega
  | succ n =>
    rw [FlagSet.parseLoop, hone]
    exact parseLoop_fuel quote n _ f' (by omega) (by omega)

theorem parseLoop_stop (quote : GoString → GoString) (n : Nat) (f f' : FlagSet)
    (e : Option GoError) (hone : f.parseOne quote = ((false, e), f')) :
    FlagSet.parseLoop quote (n + 1) f = (e, f') := by
  rw [FlagSet.parseLoop, hone]
  cases e <;> rfl

theorem parseLoop_after (quote : GoString → GoString) (n m : Nat) (f f' : FlagSet)
    (hm : f.args.length < m) (h : FlagSet.after quote n f = some f') :
    FlagSet.parseLoop quote m f = FlagSet.parseLoop quote (f'.args.length + 1) f' ∧
      f'.s.parse = f.s.parse := by
  induction n generalizing m f with
  | zero =>
    simp [FlagSet.after] at h
    subst h
    exact ⟨parseLoop_fuel quote m _ f hm (by omega), rfl⟩
  | succ n ih =>
    unfold FlagSet.after at h
    rcases hone : f.parseOne quote with ⟨⟨seen, e⟩, f1⟩
    rw [hone] at h
    cases seen with
    | false => simp at h
    | true =>
      simp only at h
      have hs := parseOne_seen quote f f1 e hone
      have := ih (f1.args.length + 1) f1 (by omega) h
      exact ⟨(parseLoop_step quote m f f1 e hm hone).trans this.1, this.2.trans hs.2.1⟩

theorem setFlag_output (quote : GoString → GoString) (f f' : FlagSet) (name value : GoString)
    (hasValue seen : Bool)
    (h : f.setFlag quote name hasValue value = ((seen, none), f')) :
    f'.output = f.output := by
  unfold FlagSet.setFlag at h
  by_cases hh : name = ascii "h"
  · rw [if_pos hh] at h
    split_ifs at h
    · split at h
      · simp at h; rw [← h.2]
      · simp [FlagSet.failf] at h
    · simp at h; rw [← h.2]
  · rw [if_neg hh] at h
    by_cases hs : name = ascii "s"
    · rw [if_pos hs] at h
      dsimp only at h
      split at h
      · simp [FlagSet.failf] at h
      · split at h
        · simp [FlagSet.failf] at h
        · simp at h; rw [← h.2]
    · rw [if_neg hs] at h
      split_ifs at h
      · simp at h
      · simp [FlagSet.failf] at h

theorem parseOne_output (quote : GoString → GoString) (f f' : FlagSet) (seen : Bool)
    (h : f.parseOne quote = ((seen, none), f')) : f'.output = f.output := by
  unfold FlagSet.parseOne at h
  split at h
  · simp at h; rw [← h.2]
  · dsimp only at h
    split_ifs at h
    all_goals first
      | (simp [FlagSet.failf] at h; done)
      | (simp at h; rw [← h.2])
      | exact Eq.trans (setFlag_output quote _ _ _ _ _ _ h) rfl

theorem parseLoop_output (quote : GoString → GoString) (n : Nat) (f f' : FlagSet)
    (h : FlagSet.parseLoop quote n f = (none, f')) : f'.output = f.output := by
  induction n generalizing f with
  | zero => simp [FlagSet.parseLoop] at h; rw [← h]
  | succ n ih =>
    unfold FlagSet.parseLoop at h
    rcases hone : f.parseOne quote with ⟨⟨seen, e⟩, f1⟩
    rw [hone] at h
    cases seen with
    | true =>
      have he := (parseOne_seen quote f f1 e hone).2.2
      subst he
      exact (ih f1 h).trans (parseOne_output quote f f1 true hone)
    | false =>
      cases e with
      | none =>
        simp at h
        subst h
        exact parseOne_output quote f _ false hone
      | some err => simp at h

theorem Parse_output (quote : GoString → GoString) (args : List GoString) (f : FlagSet)
    (h : (FlagSet.init quote).Parse quote args = (none, f)) : f.output = [] :=
  parseLoop_output quote _ _ f h

/-! ## The help flag -/

theorem parseOne_h (quote : GoString → GoString) (f : FlagSet) (a : GoString)
    (rest : List GoString) (ha : a = ascii "-h" ∨ a = ascii "--h")
    (hargs : f.args = a :: rest) :
    f.parseOne quote = ((true, none), { f with args := rest, help := true }) := by
  rcases ha with rfl | rfl <;>
    simp [FlagSet.parseOne, FlagSet.setFlag, hargs, ascii, IndexByte]

theorem IndexByte_eq_zero (s : GoString) (c : Nat) (h : IndexByte s c = 0) :
    ∃ t, s = c :: t := by
  cases s with
  | nil => simp [IndexByte] at h
  | cons b bs =>
    by_cases hb : b = c
    · exact ⟨bs, by rw [hb]⟩
    · simp only [IndexByte, hb, if_false] at h
      split_ifs at h
      omega

theorem help_value (name : GoString) (h0 : 0 ≤ IndexByte (name.drop 1) 61)
    (hn : name.take ((IndexByte (name.drop 1) 61).toNat + 1) = ascii "h") :
    name = 104 :: 61 :: name.drop ((IndexByte (name.drop 1) 61).toNat + 2) := by
  cases name with
  | nil => simp [ascii] at hn
  | cons c t =>
    simp only [List.drop_succ_cons, List.drop_zero] at h0 hn ⊢
    simp only [List.take_succ_cons, ascii] at hn
    simp at hn
    obtain ⟨hc, ht⟩ := hn
    rcases ht with ht | ht
    · have hi : IndexByte t 61 = 0 := by omega
      obtain ⟨t', rfl⟩ := IndexByte_eq_zero t 61 hi
      simp [hc, hi]
    · subst ht
      simp [IndexByte] at h0

theorem setFlag_args (quote : GoString → GoString) (f f' : FlagSet) (name value : GoString)
    (hasValue : Bool) (r : Bool × Option GoError)
    (h : f.setFlag quote name hasValue value = (r, f')) :
    ∀ b ∈ f'.args, b ∈ f.args := by
  unfold FlagSet.setFlag at h
  by_cases hh : name = ascii "h"
  · rw [if_pos hh] at h
    split_ifs at h
    · split at h <;> (simp [FlagSet.failf] at h; rw [← h.2]; simp)
    · simp at h; rw [← h.2]; simp
  · rw [if_neg hh] at h
    by_cases hs : name = ascii "s"
    · rw [if_pos hs] at h
      cases hasValue
      · cases hargs : f.args with
        | nil => simp [hargs, FlagSet.failf] at h; rw [← h.2]; simp
        | cons v rest =>
          simp only [hargs, Bool.false_eq_true, if_false] at h
          split at h <;> (simp [FlagSet.failf] at h; rw [← h.2]; intro b hb; simp [hb])
      · simp only [if_true] at h
        split at h <;> (simp [FlagSet.failf] at h; rw [← h.2]; simp)
    · rw [if_neg hs] at h
      split_ifs at h <;> (simp [FlagSet.failf] at h; rw [← h.2]; simp)

theorem setFlag_help (quote : GoString → GoString) (f f' : FlagSet) (name value : GoString)
    (hasValue seen : Bool)
    (h : f.setFlag quote name hasValue value = ((seen, none), f')) (hh : f.help = true)
    (hv : name = ascii "h" → hasValue = true → ParseBool value ≠ some false) :
    f'.help = true := by
  unfold FlagSet.setFlag at h
  by_cases hn : name = ascii "h"
  · rw [if_pos hn] at h
    split_ifs at h with hhv
    · split at h
      · rename_i b hb
        simp at h
        rw [← h.2]
        cases b with
        | true => rfl
        | false => exact absurd hb (hv hn hhv)
      · simp [FlagSet.failf] at h
    · simp at h; rw [← h.2]
  · rw [if_neg hn] at h
    by_cases hs : name = ascii "s"
    · rw [if_pos hs] at h
      dsimp only at h
      split at h
      · simp [FlagSet.failf] at h
      · split at h
        · simp [FlagSet.failf] at h
        · simp at h; rw [← h.2]; exact hh
    · rw [if_neg hs] at h
      split_ifs at h
      · simp at h
      · simp [FlagSet.failf] at h

theorem flag_shape (s : GoString) (h : ¬ (s.length < 2 ∨ s.head? ≠ some 45)) :
    ∃ c tl, s = 45 :: c :: tl := by
  rcases s with _ | ⟨c0, _ | ⟨c1, tl⟩⟩
  · simp at h
  · simp at h
  · simp at h
    exact ⟨c1, tl, by rw [h]⟩

theorem helpOff_value (s name value : GoString) (hs : s = 45 :: name ∨ s = 45 :: 45 :: name)
    (hname : name = 104 :: 61 :: value) (hoff : isHelpOff s = false) :
    ParseBool value ≠ some false := by
  subst hname
  rcases hs with rfl | rfl
  · intro hv
    simp [isHelpOff, ascii, hv] at hoff
  · intro hv
    simp [isHelpOff, ascii, hv] at hoff

theorem parseOne_args (quote : GoString → GoString) (f f' : FlagSet)
    (r : Bool × Option GoError) (h : f.parseOne quote = (r, f')) :
    ∀ b ∈ f'.args, b ∈ f.args := by
  unfold FlagSet.parseOne at h
  split at h
  · simp at h; rw [← h.2]; simp
  · rename_i s rest hargs
    rw [hargs]
    dsimp only at h
    split_ifs at h
    all_goals first
      | (simp [FlagSet.failf] at h; rw [← h.2]; simp [hargs]; done)
      | (simp at h; rw [← h.2]; intro b hb; exact List.mem_cons_of_mem _ hb)
      | (intro b hb
         exact List.mem_cons_of_mem _ (setFlag_args quote _ _ _ _ _ _ h b hb))

theorem parseOne_keeps_help (quote : GoString → GoString) (f f' : FlagSet) (seen : Bool)
    (h : f.parseOne quote = ((seen, none), f')) (hh : f.help = true)
    (hoff : ∀ b ∈ f.args, isHelpOff b = false) : f'.help = true := by
  cases hargs : f.args with
  | nil =>
    simp [FlagSet.parseOne, hargs] at h
    rw [← h.2]; exact hh
  | cons s rest =>
    have hs_off : isHelpOff s = false := hoff s (by simp [hargs])
    simp only [FlagSet.parseOne, hargs] at h
    by_cases h1 : s.length < 2 ∨ s.head? ≠ some 45
    · rw [if_pos h1] at h
      simp at h
      rw [← h.2]; exact hh
    · rw [if_neg h1] at h
      obtain ⟨c, tl, rfl⟩ := flag_shape s h1
      by_cases h2 : c = 45
      · subst h2
        simp only [List.getElem?_cons_succ, List.getElem?_cons_zero, if_true, true_and] at h
        split_ifs at h
        all_goals first
          | (simp at h; rw [← h.2]; exact hh)
          | (simp [FlagSet.failf] at h; done)
          | exact setFlag_help quote _ _ _ _ _ _ h hh
              (fun hn _ => helpOff_value _ _ _ (Or.inr rfl) (help_value _ (by assumption) hn) hs_off)
          | exact setFlag_help quote _ _ _ _ _ _ h hh (fun _ hv => absurd hv (by simp))
      · simp only [List.getElem?_cons_succ, List.getElem?_cons_zero, Option.some.injEq, h2,
          if_false, false_and] at h
        split_ifs at h
        all_goals first
          | (simp at h; rw [← h.2]; exact hh)
          | (simp [FlagSet.failf] at h; done)
          | exact setFlag_help quote _ _ _ _ _ _ h hh
              (fun hn _ => helpOff_value _ _ _ (Or.inl rfl) (help_value _ (by assumption) hn) hs_off)
          | exact setFlag_help quote _ _ _ _ _ _ h hh (fun _ hv => absurd hv (by simp))


theorem parseLoop_keeps_help (quote : GoString → GoString) (n : Nat) (f f' : FlagSet)
    (h : FlagSet.parseLoop quote n f = (none, f')) (hh : f.help = true)
    (hoff : ∀ b ∈ f.args, isHelpOff b = false) : f'.help = true := by
  induction n generalizing f with
  | zero => simp [FlagSet.parseLoop] at h; rw [← h]; exact hh
  | succ n ih =>
    unfold FlagSet.parseLoop at h
    rcases hone : f.parseOne quote with ⟨⟨seen, e⟩, f1⟩
    rw [hone] at h
    have hsub := parseOne_args quote f f1 _ hone
    cases seen with
    | true =>
      have he := (parseOne_seen quote f f1 e hone).2.2
      subst he
      exact ih f1 h (parseOne_keeps_help quote f f1 true hone hh hoff)
        (fun b hb => hoff b (hsub b hb))
    | false =>
      cases e with
      | none =>
        simp at h
        subst h
        exact parseOne_keeps_help quote f _ false hone hh hoff
      | some err => simp at h

/-! ## Running `main` -/

theorem main_of_parse_error {T : Type} (L : GoLib T) (prog : GoString) (args : List GoString)
    (stdin : ReadAllResult) (fs : FileSystem) (e : GoError) (f : FlagSet)
    (h : (FlagSet.init L.quote).Parse L.quote args = (some e, f)) :
    main L prog args stdin fs =
      { status := ExitStatus.exited 2, stdout := [],
        stderr := f.output ++ ascii "run with -h for help" ++ [10],
        events := [] } := by
  simp [main, h, die]

theorem main_of_help {T : Type} (L : GoLib T) (prog : GoString) (args : List GoString)
    (stdin : ReadAllResult) (fs : FileSystem) (f : FlagSet)
    (h : (FlagSet.init L.quote).Parse L.quote args = (none, f)) (hh : f.help = true) :
    main L prog args stdin fs =
      { status := ExitStatus.exited 0, stdout := [],
        stderr := f.output ++ helpText prog ++ L.printDefaults,
        events := [] } := by
  simp [main, h, hh]

theorem loadTemplate_not_nil {T : Type} (L : GoLib T) (a : List GoString)
    (stdin : ReadAllResult) (fs : FileSystem) :
    (loadTemplate L a stdin fs).1 ≠ (none, none) := by
  unfold loadTemplate
  split_ifs
  · simp only
    split <;> simp
  · simp only [parseReader]
    split
    · simp
    · split <;> simp

theorem main_of_load_error {T : Type} (L : GoLib T) (prog : GoString) (args : List GoString)
    (stdin : ReadAllResult) (fs : FileSystem) (f : FlagSet) (t : Option T) (err : GoError)
    (h : (FlagSet.init L.quote).Parse L.quote args = (none, f)) (hh : f.help = false)
    (hl : (loadTemplate L f.args stdin fs).1 = (t, some err)) :
    main L prog args stdin fs =
      { status := ExitStatus.exited 1, stdout := [], stderr := f.output ++ err ++ [10],
        events := [(loadTemplate L f.args stdin fs).2] } := by
  rcases hl' : loadTemplate L f.args stdin fs with ⟨⟨t', e'⟩, ev⟩
  rw [hl'] at hl
  simp at hl
  obtain ⟨rfl, rfl⟩ := hl
  simp [main, h, hh, hl', die]

theorem main_of_loaded {T : Type} (L : GoLib T) (prog : GoString) (args : List GoString)
    (stdin : ReadAllResult) (fs : FileSystem) (f : FlagSet) (t : T)
    (h : (FlagSet.init L.quote).Parse L.quote args = (none, f)) (hh : f.help = false)
    (hl : (loadTemplate L f.args stdin fs).1 = (some t, none)) :
    main L prog args stdin fs =
      match L.templateExecute t f.dotMap with
      | .killed out =>
        { status := ExitStatus.signaled SIGPIPE, stdout := out, stderr := f.output,
          events := [(loadTemplate L f.args stdin fs).2, Event.execute] }
      | .returned out (some err) =>
        { status := ExitStatus.exited 1, stdout := out, stderr := f.output ++ err ++ [10],
          events := [(loadTemplate L f.args stdin fs).2, Event.execute] }
      | .returned out none =>
        { status := ExitStatus.exited 0, stdout := out, stderr := f.output,
          events := [(loadTemplate L f.args stdin fs).2, Event.execute] } := by
  rcases hl' : loadTemplate L f.args stdin fs with ⟨⟨t', e'⟩, ev⟩
  rw [hl'] at hl
  simp at hl
  obtain ⟨rfl, rfl⟩ := hl
  rcases hx : L.templateExecute t f.dotMap with ⟨out, _ | err⟩ | out <;>
    simp [main, h, hl', hx, hh, die]

theorem main_of_loaded_events {T : Type} (L : GoLib T) (prog : GoString)
    (args : List GoString) (stdin : ReadAllResult) (fs : FileSystem) (f : FlagSet) (t : T)
    (h : (FlagSet.init L.quote).Parse L.quote args = (none, f)) (hh : f.help = false)
    (hl : (loadTemplate L f.args stdin fs).1 = (some t, none)) :
    (main L prog args stdin fs).events =
      [(loadTemplate L f.args stdin fs).2, Event.execute] := by
  rw [main_of_loaded L prog args stdin fs f t h hh hl]
  rcases L.templateExecute t f.dotMap with ⟨out, _ | err⟩ | out <;> rfl

theorem keyOf_valueOf (s : GoString) (h : 61 ∈ s) :
    s = keyOf s ++ 61 :: valueOf s ∧ 61 ∉ keyOf s := by
  induction s with
  | nil => simp at h
  | cons b bs ih =>
    by_cases hb : b = 61
    · subst hb
      simp [keyOf, valueOf]
    · have hbs : 61 ∈ bs := by
        rcases List.mem_cons.1 h with e | e
        · exact absurd e.symm hb
        · exact e
      have := ih hbs
      simp only [keyOf, valueOf] at this ⊢
      simp only [List.takeWhile_cons, List.dropWhile_cons, bne_iff_ne, ne_eq, hb,
        not_false_eq_true, decide_True, if_true, List.cons_append, List.mem_cons]
      refine ⟨by rw [← this.1], ?_⟩
      rintro (e | e)
      · exact hb e.symm
      · exact this.2 e

/-! ## The claims -/

/-- C1: for every string `s` that contains `=`, processing the flag occurrence `-s s` on any
map binds the key (the substring of `s` before the first `=`) to the value (everything
after that first `=`, further `=` included) and leaves every other key as it was. This holds
for the call `Set(s)` on the `-s` flag and for the step of the flag parser on arguments
starting with `-s s`, which ends in the same map. -/
theorem C1_s_flag_binds_key_to_value (quote : GoString → GoString) (f : FlagSet)
    (s : GoString) (rest : List GoString) (hparse : f.s.parse = sParse quote)
    (hargs : f.args = ascii "-s" :: s :: rest) (h : 61 ∈ s) :
    (s = keyOf s ++ 61 :: valueOf s ∧ 61 ∉ keyOf s) ∧
    (f.s.Set s f.dotMap).1 = none ∧
    (f.s.Set s f.dotMap).2.2 (keyOf s) = some (valueOf s) ∧
    (∀ k, k ≠ keyOf s → (f.s.Set s f.dotMap).2.2 k = f.dotMap k) ∧
    (f.parseOne quote).1 = (true, none) ∧
    (f.parseOne quote).2.dotMap = (f.s.Set s f.dotMap).2.2 ∧
    (f.parseOne quote).2.args = rest := by
  have hset := Set_of_mem quote f.s hparse s f.dotMap h
  have hone := parseOne_s_next quote f (ascii "-s") s rest (Or.inl rfl) hargs
  rw [hset] at hone
  rw [hone, hset]
  refine ⟨keyOf_valueOf s h, rfl, ?_, ?_, rfl, rfl, rfl⟩
  · simp [DotMap.set]
  · intro k hk
    simp [DotMap.set, hk]

/-- The theorem of C1 applied to the arguments `-s k=v=w f` on the initial flag set: the key
`k` ends up bound to `v=w`. -/
theorem C1_witness :
    61 ∈ ascii "k=v=w" ∧
    ({ FlagSet.init TextTemplate.quoteASCII with
        args := [ascii "-s", ascii "k=v=w", ascii "f"] }.parseOne
      TextTemplate.quoteASCII).2.dotMap (ascii "k") = some (ascii "v=w") := by
  have h := C1_s_flag_binds_key_to_value TextTemplate.quoteASCII
    { FlagSet.init TextTemplate.quoteASCII with args := [ascii "-s", ascii "k=v=w", ascii "f"] }
    (ascii "k=v=w") [ascii "f"] rfl rfl (by decide)
  refine ⟨by decide, ?_⟩
  rw [h.2.2.2.2.2.1]
  exact h.2.2.1

/-- C10: `Set` is atomic with respect to its parser. If the parse function returns an error,
`Set` returns that error and the flag (its values list) is unchanged; otherwise `Set` returns
nil and the values list is the old one with the parsed string appended. For the `-s` flag,
a value without `=` leaves the values list and the key/value map unchanged, and a value
with `=` appends the original unsplit string. -/
theorem C10_Set_is_atomic {σ : Type} (m : multistringFlag σ) (value : GoString) (env : σ) :
    (∀ v err env', m.parse value env = ((v, some err), env') →
      m.Set value env = (some err, m, env')) ∧
    (∀ v env', m.parse value env = ((v, none), env') →
      m.Set value env = (none, { values := m.values ++ [v], parse := m.parse }, env')) ∧
    (∀ (quote : GoString → GoString) (ms : multistringFlag DotMap) (dotMap : DotMap),
      ms.parse = sParse quote →
      (61 ∉ value → ∃ err, ms.Set value dotMap = (some err, ms, dotMap)) ∧
      (61 ∈ value →
        (ms.Set value dotMap).1 = none ∧
        (ms.Set value dotMap).2.1.values = ms.values ++ [value])) := by
  refine ⟨?_, ?_, ?_⟩
  · intro v err env' h
    simp [multistringFlag.Set, h]
  · intro v env' h
    simp [multistringFlag.Set, h]
  · intro quote ms dotMap hms
    refine ⟨fun h => Set_of_not_mem quote ms hms value dotMap h, fun h => ?_⟩
    rw [Set_of_mem quote ms hms value dotMap h]
    exact ⟨rfl, rfl⟩

/-- C9: `parseReader` returns either a template and no error, or no template and an error
whose message contains the description. When the stream was read in full and its text does
not parse, the message is `error when parsing template read from `, the description, ` - `
and the message of the syntax error; when reading fails, it is `error when reading from `,
the description, ` - ` and the message of the read error. -/
theorem C9_parseReader_result {T : Type} (L : GoLib T) (r : ReadAllResult) (d : GoString) :
    ((∃ t, parseReader L r d = (some t, none)) ∨
      (∃ msg, parseReader L r d = (none, some msg) ∧ List.IsInfix d msg)) ∧
    (∀ text err, r = (text, none) → L.templateParse d text = .error err →
      parseReader L r d =
        (none, some (ascii "error when parsing template read from " ++ d ++ ascii " - " ++ err))) ∧
    (∀ text err, r = (text, some err) →
      parseReader L r d =
        (none, some (ascii "error when reading from " ++ d ++ ascii " - " ++ err))) ∧
    (∀ text t, r = (text, none) → L.templateParse d text = .ok t →
      parseReader L r d = (some t, none)) := by
  refine ⟨?_, ?_, ?_, ?_⟩
  · rcases r with ⟨text, _ | err⟩
    · rcases hp : L.templateParse d text with err | t
      · right
        refine ⟨_, by simp [parseReader, hp]; rfl, ?_⟩
        exact ⟨ascii "error when parsing template read from ", ascii " - " ++ err, by simp⟩
      · left
        exact ⟨t, by simp [parseReader, hp]⟩
    · right
      refine ⟨_, by simp [parseReader]; rfl, ?_⟩
      exact ⟨ascii "error when reading from ", ascii " - " ++ err, by simp⟩
  · rintro text err rfl hp
    simp [parseReader, hp]
  · rintro text err rfl
    simp [parseReader]
  · rintro text t rfl hp
    simp [parseReader, hp]

theorem sValueAtHead_some (args : List GoString) (v : GoString)
    (h : sValueAtHead args = some v) :
    (∃ a rest, (a = ascii "-s" ∨ a = ascii "--s") ∧ args = a :: v :: rest) ∨
    (∃ a rest, (a = ascii "-s=" ∨ a = ascii "--s=") ∧ args = (a ++ v) :: rest) := by
  cases args with
  | nil => simp [sValueAtHead] at h
  | cons a rest =>
    simp only [sValueAtHead] at h
    split_ifs at h with h1 h2 h3
    · cases rest with
      | nil => simp at h
      | cons w rest' =>
        simp at h
        subst h
        exact Or.inl ⟨a, rest', h1, rfl⟩
    · simp at h
      refine Or.inr ⟨a.take 3, rest, Or.inl h2, ?_⟩
      rw [← h, List.take_append_drop]
    · simp at h
      refine Or.inr ⟨a.take 4, rest, Or.inr h3, ?_⟩
      rw [← h, List.take_append_drop]

theorem parseOne_malformed (quote : GoString → GoString) (f : FlagSet) (v : GoString)
    (hparse : f.s.parse = sParse quote) (hhead : sValueAtHead f.args = some v)
    (hv : 61 ∉ v) : ∃ err f', f.parseOne quote = ((false, some err), f') := by
  obtain ⟨err, hset⟩ := Set_of_not_mem quote f.s hparse v f.dotMap hv
  rcases sValueAtHead_some f.args v hhead with ⟨a, rest, ha, hargs⟩ | ⟨a, rest, ha, hargs⟩
  · have := parseOne_s_next quote f a v rest ha hargs
    rw [hset] at this
    exact ⟨_, _, this⟩
  · have := parseOne_s_eq quote f a v rest ha hargs
    rw [hset] at this
    exact ⟨_, _, this⟩

theorem Parse_malformed (quote : GoString → GoString) (args : List GoString) (n : Nat)
    (v : GoString)
    (hreach : (FlagSet.after quote n { FlagSet.init quote with args := args }).bind
      (fun f => sValueAtHead f.args) = some v)
    (hv : 61 ∉ v) : ∃ err f', (FlagSet.init quote).Parse quote args = (some err, f') := by
  rcases hafter : FlagSet.after quote n { FlagSet.init quote with args := args } with _ | f1
  · simp [hafter] at hreach
  · simp [hafter] at hreach
    have hl := parseLoop_after quote n (args.length + 1) _ f1 (by simp) hafter
    obtain ⟨err, f', hone⟩ := parseOne_malformed quote f1 v (by rw [hl.2]; rfl) hreach hv
    refine ⟨err, f', ?_⟩
    unfold FlagSet.Parse
    rw [hl.1]
    exact parseLoop_stop quote _ f1 f' (some err) hone

/-- C2: if some `-s` occurrence reached by flag parsing (after `n` flag occurrences parsed
with success) has a value without `=`, argument parsing fails and the program ends with
exit code 2, the line `run with -h for help` last on stderr, nothing on stdout, and no
template parsed or executed. -/
theorem C2_malformed_s_exits_2 {T : Type} (L : GoLib T) (prog : GoString)
    (args : List GoString) (stdin : ReadAllResult) (fs : FileSystem) (n : Nat) (v : GoString)
    (hreach : (FlagSet.after L.quote n { FlagSet.init L.quote with args := args }).bind
      (fun f => sValueAtHead f.args) = some v)
    (hv : 61 ∉ v) :
    ((FlagSet.init L.quote).Parse L.quote args).1 ≠ none ∧
    (main L prog args stdin fs).status = ExitStatus.exited 2 ∧
    (∃ pre, (main L prog args stdin fs).stderr = pre ++ ascii "run with -h for help\n") ∧
    (main L prog args stdin fs).stdout = [] ∧
    (main L prog args stdin fs).events = [] := by
  obtain ⟨err, f', hp⟩ := Parse_malformed L.quote args n v hreach hv
  rw [main_of_parse_error L prog args stdin fs err f' hp, hp]
  refine ⟨by simp, rfl, ⟨f'.output, ?_⟩, rfl, rfl⟩
  simp only [List.append_assoc]
  rfl

/-- The theorem of C2 applied to the arguments `-s a=b -s novalue -h`: the second `-s` is
reached after one flag occurrence and the run ends with exit code 2. -/
theorem C2_witness :
    61 ∉ ascii "novalue" ∧
    (main TextTemplate.fragmentLib (ascii "texpand")
      [ascii "-s", ascii "a=b", ascii "-s", ascii "novalue", ascii "-h"]
      (ascii "text", none) (fun _ => .ok [])).status = ExitStatus.exited 2 :=
  ⟨by decide,
   (C2_malformed_s_exits_2 TextTemplate.fragmentLib (ascii "texpand")
      [ascii "-s", ascii "a=b", ascii "-s", ascii "novalue", ascii "-h"]
      (ascii "text", none) (fun _ => .ok []) 1 (ascii "novalue") (by rfl) (by decide)).2.1⟩

/-! ## A sequence of well-formed `-s` values -/

/-- The map after the bindings of `vals` were written in order over `m`. -/
theorem foldl_set_of_not_key (vals : List GoString) (m : DotMap) (k : GoString)
    (h : ∀ s ∈ vals, keyOf s ≠ k) :
    (vals.foldl (fun d s => d.set (keyOf s) (valueOf s)) m) k = m k := by
  induction vals generalizing m with
  | nil => rfl
  | cons s vs ih =>
    rw [List.foldl_cons, ih _ (fun s' hs' => h s' (by simp [hs']))]
    have : k ≠ keyOf s := fun e => h s (by simp) e.symm
    simp [DotMap.set, this]

theorem foldl_set_last (pre post : List GoString) (s : GoString) (m : DotMap)
    (h : ∀ s' ∈ post, keyOf s' ≠ keyOf s) :
    ((pre ++ s :: post).foldl (fun d s => d.set (keyOf s) (valueOf s)) m) (keyOf s) =
      some (valueOf s) := by
  rw [List.foldl_append, List.foldl_cons, foldl_set_of_not_key post _ _ h]
  simp [DotMap.set]

theorem setAll_of_mem (quote : GoString → GoString) (vals : List GoString)
    (m : multistringFlag DotMap) (d : DotMap) (hm : m.parse = sParse quote)
    (hwf : ∀ s ∈ vals, 61 ∈ s) :
    setAll m d vals =
      (none, { values := m.values ++ vals, parse := m.parse },
        vals.foldl (fun d s => d.set (keyOf s) (valueOf s)) d) := by
  induction vals generalizing m d with
  | nil => simp [setAll]
  | cons s vs ih =>
    rw [setAll, Set_of_mem quote m hm s d (hwf s (by simp))]
    simp only
    have := ih { values := m.values ++ [s], parse := m.parse } (d.set (keyOf s) (valueOf s)) hm
      (fun s' hs' => hwf s' (by simp [hs']))
    rw [this]
    simp

theorem parseLoop_s_values (quote : GoString → GoString) (vals : List GoString) (f : FlagSet)
    (hparse : f.s.parse = sParse quote) (hwf : ∀ s ∈ vals, 61 ∈ s)
    (hargs : f.args = vals.flatMap (fun s => [ascii "-s", s])) :
    FlagSet.parseLoop quote (f.args.length + 1) f =
      (none, { f with
        args := [],
        s := { values := f.s.values ++ vals, parse := f.s.parse },
        dotMap := vals.foldl (fun d s => d.set (keyOf s) (valueOf s)) f.dotMap }) := by
  induction vals generalizing f with
  | nil =>
    simp at hargs
    have hone : f.parseOne quote = ((false, none), f) := by simp [FlagSet.parseOne, hargs]
    rw [parseLoop_stop quote _ f f none hone]
    cases f
    simp at hargs
    simp [hargs]
  | cons s vs ih =>
    have hargs' : f.args = ascii "-s" :: s :: vs.flatMap (fun s => [ascii "-s", s]) := by
      rw [hargs]; simp
    have hone := parseOne_s_next quote f (ascii "-s") s _ (Or.inl rfl) hargs'
    rw [Set_of_mem quote f.s hparse s f.dotMap (hwf s (by simp))] at hone
    rw [parseLoop_step quote _ f _ none (by omega) hone]
    have := ih { f with
        args := vs.flatMap (fun s => [ascii "-s", s]),
        s := { values := f.s.values ++ [s], parse := f.s.parse },
        dotMap := f.dotMap.set (keyOf s) (valueOf s) }
      hparse (fun s' hs' => hwf s' (by simp [hs'])) rfl
    rw [this]
    simp

/-- C5: for every sequence of well-formed `-s` values processed in order from the empty
map, by calling `Set` on each or by parsing the arguments `-s v1 -s v2 ...`, no error
occurs and the final map binds the key of each value to the value of the last occurrence
with that key, and binds no key that is the key of no element of the sequence. -/
theorem C5_last_write_wins (quote : GoString → GoString) (vals : List GoString)
    (hwf : ∀ s ∈ vals, 61 ∈ s) :
    (setAll (FlagSet.init quote).s DotMap.empty vals).1 = none ∧
    ((FlagSet.init quote).Parse quote (vals.flatMap (fun s => [ascii "-s", s]))).1 = none ∧
    ((FlagSet.init quote).Parse quote (vals.flatMap (fun s => [ascii "-s", s]))).2.dotMap =
      (setAll (FlagSet.init quote).s DotMap.empty vals).2.2 ∧
    (∀ pre s post, vals = pre ++ s :: post → (∀ s' ∈ post, keyOf s' ≠ keyOf s) →
      (setAll (FlagSet.init quote).s DotMap.empty vals).2.2 (keyOf s) = some (valueOf s)) ∧
    (∀ k, (∀ s ∈ vals, keyOf s ≠ k) →
      (setAll (FlagSet.init quote).s DotMap.empty vals).2.2 k = none) := by
  have h1 := setAll_of_mem quote vals (FlagSet.init quote).s DotMap.empty rfl hwf
  have h2 := parseLoop_s_values quote vals
    { FlagSet.init quote with args := vals.flatMap (fun s => [ascii "-s", s]) } rfl hwf rfl
  unfold FlagSet.Parse
  rw [h1, h2]
  refine ⟨rfl, rfl, rfl, ?_, ?_⟩
  · rintro pre s post rfl hpost
    exact foldl_set_last pre post s _ hpost
  · intro k hk
    exact foldl_set_of_not_key vals _ k hk

/-- The theorem of C5 applied to the values `a=1`, `b=2`, `a=3`: the key `a` ends up bound
to `3`. -/
theorem C5_witness :
    (∀ s ∈ [ascii "a=1", ascii "b=2", ascii "a=3"], 61 ∈ s) ∧
    ((FlagSet.init TextTemplate.quoteASCII).Parse TextTemplate.quoteASCII
      [ascii "-s", ascii "a=1", ascii "-s", ascii "b=2", ascii "-s", ascii "a=3"]).2.dotMap
        (ascii "a") = some (ascii "3") := by
  have h := C5_last_write_wins TextTemplate.quoteASCII [ascii "a=1", ascii "b=2", ascii "a=3"]
    (by decide)
  refine ⟨by decide, ?_⟩
  have h3 := h.2.2.1
  have h4 := h.2.2.2.1 [ascii "a=1", ascii "b=2"] (ascii "a=3") [] rfl (by simp)
  simp only [List.flatMap_cons, List.flatMap_nil, List.cons_append, List.nil_append,
    List.append_nil] at h3
  rw [h3]
  exact h4

/-- C3, as stated, fails: with a malformed `-s` value or an unknown flag before `-h` the
program exits with code 2; a `-h` after a positional argument is a file path handed to
`template.ParseFiles`; and a later `-h=false` switches help off again, so the template is
read from stdin and executed. -/
theorem C3_help_not_always_exit_0 :
    (main TextTemplate.fragmentLib (ascii "texpand") [ascii "-s", ascii "bad", ascii "-h"]
      ([], none) (fun _ => .ok [])).status = ExitStatus.exited 2 ∧
    (main TextTemplate.fragmentLib (ascii "texpand") [ascii "-x", ascii "-h"]
      ([], none) (fun _ => .ok [])).status = ExitStatus.exited 2 ∧
    (main TextTemplate.fragmentLib (ascii "texpand") [ascii "file", ascii "-h"]
      ([], none) (fun _ => .ok [])).events =
        [Event.parseFiles [ascii "file", ascii "-h"], Event.execute] ∧
    (main TextTemplate.fragmentLib (ascii "texpand") [ascii "-h", ascii "-h=false"]
      (ascii "text", none) (fun _ => .ok [])).events =
        [Event.parseStdin (ascii "stdin"), Event.execute] := by
  refine ⟨by decide, by decide, by decide, by decide⟩

/-- C3, amended: for every argument list in which `-h` (or `--h`) is reached as a flag by
flag parsing (after `n` flag occurrences parsed with success), no argument after it has the
form `-h=value` or `--h=value` with a value that reads as false, and flag parsing succeeds,
whatever other flags and positional file paths follow, the program writes the help block
(and nothing else) to stderr, exits with code 0 and makes no template call: it reads
neither stdin nor any file, and their content has no effect on the run. -/
theorem C3_help_exits_0 {T : Type} (L : GoLib T) (prog : GoString) (args : List GoString)
    (stdin : ReadAllResult) (fs : FileSystem) (n : Nat) (a : GoString)
    (rest : List GoString)
    (hreach : (FlagSet.after L.quote n { FlagSet.init L.quote with args := args }).map
      (fun f => f.args) = some (a :: rest))
    (ha : a = ascii "-h" ∨ a = ascii "--h")
    (hoff : ∀ b ∈ rest, isHelpOff b = false)
    (hparse : ((FlagSet.init L.quote).Parse L.quote args).1 = none) :
    (main L prog args stdin fs).status = ExitStatus.exited 0 ∧
    (main L prog args stdin fs).events = [] ∧
    (main L prog args stdin fs).stdout = [] ∧
    (main L prog args stdin fs).stderr = helpText prog ++ L.printDefaults ∧
    (∀ stdin' fs', main L prog args stdin' fs' = main L prog args stdin fs) := by
  rcases hafter : FlagSet.after L.quote n { FlagSet.init L.quote with args := args }
    with _ | f1
  · simp [hafter] at hreach
  · simp [hafter] at hreach
    rcases hp : (FlagSet.init L.quote).Parse L.quote args with ⟨e, f⟩
    rw [hp] at hparse
    simp at hparse
    subst hparse
    have hl := (parseLoop_after L.quote n (args.length + 1) _ f1 (by simp) hafter).1
    have hone := parseOne_h L.quote f1 a rest ha hreach
    have hstep := parseLoop_step L.quote (f1.args.length + 1) f1 _ none (by omega) hone
    have hloop : FlagSet.parseLoop L.quote (rest.length + 1)
        { f1 with args := rest, help := true } = (none, f) := by
      rw [← hstep, ← hl]
      exact hp
    have hhelp : f.help = true :=
      parseLoop_keeps_help L.quote _ _ f hloop rfl hoff
    rw [main_of_help L prog args stdin fs f hp hhelp]
    refine ⟨rfl, rfl, rfl, ?_, fun stdin' fs' => ?_⟩
    · simp [Parse_output L.quote args f hp]
    · rw [main_of_help L prog args stdin' fs' f hp hhelp]

/-- The amended C3 applied to the arguments `-s a=b -h -s c=d f1 -x`: `-h` is reached after
one flag occurrence, flag parsing goes on through `-s c=d` and stops with success at the
positional `f1`, and the run ends with exit code 0. -/
theorem C3_witness :
    (∀ b ∈ [ascii "-s", ascii "c=d", ascii "f1", ascii "-x"], isHelpOff b = false) ∧
    (main TextTemplate.fragmentLib (ascii "texpand")
      [ascii "-s", ascii "a=b", ascii "-h", ascii "-s", ascii "c=d", ascii "f1", ascii "-x"]
      ([], none) (fun _ => .ok [])).status = ExitStatus.exited 0 :=
  ⟨by decide,
   (C3_help_exits_0 TextTemplate.fragmentLib (ascii "texpand")
    [ascii "-s", ascii "a=b", ascii "-h", ascii "-s", ascii "c=d", ascii "f1", ascii "-x"]
    ([], none) (fun _ => .ok []) 1 (ascii "-h")
    [ascii "-s", ascii "c=d", ascii "f1", ascii "-x"] rfl (Or.inl rfl) (by decide) rfl).1⟩

theorem main_events {T : Type} (L : GoLib T) (prog : GoString) (args : List GoString)
    (stdin : ReadAllResult) (fs : FileSystem) :
    (main L prog args stdin fs).events = [] ∨
    ∃ f, (FlagSet.init L.quote).Parse L.quote args = (none, f) ∧ f.help = false ∧
      ((main L prog args stdin fs).events = [(loadTemplate L f.args stdin fs).2] ∨
       (main L prog args stdin fs).events = [(loadTemplate L f.args stdin fs).2, Event.execute]) := by
  rcases hp : (FlagSet.init L.quote).Parse L.quote args with ⟨_ | e, f⟩
  · cases hh : f.help with
    | true => left; rw [main_of_help L prog args stdin fs f hp hh]
    | false =>
      right
      refine ⟨f, rfl, hh, ?_⟩
      rcases hl : (loadTemplate L f.args stdin fs).1 with ⟨t, _ | err⟩
      · cases t with
        | none => exact absurd hl (loadTemplate_not_nil L f.args stdin fs)
        | some t => right; exact main_of_loaded_events L prog args stdin fs f t hp hh hl
      · left; rw [main_of_load_error L prog args stdin fs f t err hp hh hl]
  · left; rw [main_of_parse_error L prog args stdin fs e f hp]

theorem loadTemplate_files {T : Type} (L : GoLib T) (a : List GoString)
    (stdin : ReadAllResult) (fs : FileSystem) (ha : a ≠ []) :
    loadTemplate L a stdin fs =
      (match L.templateParseFiles fs a with
        | .ok t => (some t, none)
        | .error err => (none, some err),
       Event.parseFiles a) := by
  have : a.length > 0 := List.length_pos.2 ha
  simp [loadTemplate, this]

theorem loadTemplate_stdin {T : Type} (L : GoLib T) (stdin : ReadAllResult) (fs : FileSystem) :
    loadTemplate L [] stdin fs =
      (parseReader L stdin (ascii "stdin"), Event.parseStdin (ascii "stdin")) := by
  simp [loadTemplate]

theorem main_congr_load {T : Type} (L : GoLib T) (prog : GoString) (args : List GoString)
    (stdin stdin' : ReadAllResult) (fs fs' : FileSystem) (f : FlagSet)
    (hp : (FlagSet.init L.quote).Parse L.quote args = (none, f))
    (hl : loadTemplate L f.args stdin' fs' = loadTemplate L f.args stdin fs) :
    main L prog args stdin' fs' = main L prog args stdin fs := by
  simp only [main, hp, hl]

/-- C6: the template source is decided by the positional arguments left after flag parsing.
In a run that gets to load a template (flag parsing succeeded, help not requested): when
positional arguments remain, the template is what `template.ParseFiles` returns for exactly
those paths in order, stdin is not read and its content has no effect; when none remains,
the template is what `parseReader` returns for stdin with description `stdin`, and no file
is read. No run uses both sources. -/
theorem C6_template_source {T : Type} (L : GoLib T) (prog : GoString) (args : List GoString)
    (stdin : ReadAllResult) (fs : FileSystem) :
    (¬ ∃ paths d, Event.parseFiles paths ∈ (main L prog args stdin fs).events ∧
        Event.parseStdin d ∈ (main L prog args stdin fs).events) ∧
    (∀ f, (FlagSet.init L.quote).Parse L.quote args = (none, f) → f.help = false →
      (f.args ≠ [] →
        (main L prog args stdin fs).events.head? = some (Event.parseFiles f.args) ∧
        (∀ d, Event.parseStdin d ∉ (main L prog args stdin fs).events) ∧
        (loadTemplate L f.args stdin fs).1 =
          (match L.templateParseFiles fs f.args with
            | .ok t => (some t, none)
            | .error err => (none, some err)) ∧
        (∀ stdin', main L prog args stdin' fs = main L prog args stdin fs)) ∧
      (f.args = [] →
        (main L prog args stdin fs).events.head? = some (Event.parseStdin (ascii "stdin")) ∧
        (∀ paths, Event.parseFiles paths ∉ (main L prog args stdin fs).events) ∧
        (loadTemplate L f.args stdin fs).1 = parseReader L stdin (ascii "stdin") ∧
        (∀ fs', main L prog args stdin fs' = main L prog args stdin fs))) := by
  have hev := main_events L prog args stdin fs
  have hcases : ∀ a : List GoString,
      (loadTemplate L a stdin fs).2 = Event.parseFiles a ∧ a ≠ [] ∨
      (loadTemplate L a stdin fs).2 = Event.parseStdin (ascii "stdin") ∧ a = [] := by
    intro a
    cases a with
    | nil => right; simp [loadTemplate]
    | cons x xs => left; simp [loadTemplate]
  refine ⟨?_, ?_⟩
  · rintro ⟨paths, d, h1, h2⟩
    rcases hev with h | ⟨f, -, -, h | h⟩
    · rw [h] at h1; simp at h1
    · rw [h] at h1 h2
      rcases hcases f.args with ⟨hc, -⟩ | ⟨hc, -⟩ <;> rw [hc] at h1 h2 <;> simp at h1 h2
    · rw [h] at h1 h2
      rcases hcases f.args with ⟨hc, -⟩ | ⟨hc, -⟩ <;> rw [hc] at h1 h2 <;> simp at h1 h2
  · intro f hp hh
    have hev' : (main L prog args stdin fs).events = [(loadTemplate L f.args stdin fs).2] ∨
        (main L prog args stdin fs).events =
          [(loadTemplate L f.args stdin fs).2, Event.execute] := by
      rcases hev with h | ⟨f', hp', -, h⟩
      · exfalso
        rcases hl : (loadTemplate L f.args stdin fs).1 with ⟨t, _ | err⟩
        · cases t with
          | none => exact absurd hl (loadTemplate_not_nil L f.args stdin fs)
          | some t =>
            rw [main_of_loaded_events L prog args stdin fs f t hp hh hl] at h; simp at h
        · rw [main_of_load_error L prog args stdin fs f t err hp hh hl] at h; simp at h
      · rw [hp] at hp'
        simp at hp'
        subst hp'
        exact h
    refine ⟨fun ha => ?_, fun ha => ?_⟩
    · have hl := loadTemplate_files L f.args stdin fs ha
      refine ⟨?_, ?_, by rw [hl], fun stdin' => ?_⟩
      · rcases hev' with h | h <;> rw [h, hl] <;> rfl
      · intro d
        rcases hev' with h | h <;> rw [h, hl] <;> simp
      · exact main_congr_load L prog args stdin stdin' fs fs f hp
          (by rw [hl, loadTemplate_files L f.args stdin' fs ha])
    · rw [ha] at hev' ⊢
      have hl := loadTemplate_stdin L stdin fs
      refine ⟨?_, ?_, by rw [hl], fun fs' => ?_⟩
      · rcases hev' with h | h <;> rw [h, hl] <;> rfl
      · intro paths
        rcases hev' with h | h <;> rw [h, hl] <;> simp
      · exact main_congr_load L prog args stdin stdin fs fs' f hp
          (by rw [ha, hl, loadTemplate_stdin L stdin fs'])

/-- The fragment instance behaves as the fragment says. -/
theorem fragmentLib_agrees : TextTemplate.Agrees TextTemplate.fragmentLib := by
  intro name text nodes h
  exact ⟨nodes, by simp [TextTemplate.fragmentLib, h], fun dot => rfl⟩

theorem main_stdin_fragment {T : Type} (L : GoLib T) (hL : TextTemplate.Agrees L)
    (prog : GoString) (args : List GoString) (text : GoString) (fs : FileSystem)
    (f : FlagSet) (nodes : List TextTemplate.Node)
    (hp : (FlagSet.init L.quote).Parse L.quote args = (none, f)) (hh : f.help = false)
    (ha : f.args = []) (hn : TextTemplate.parse text = some nodes) :
    main L prog args (text, none) fs =
      { status := ExitStatus.exited 0, stdout := TextTemplate.exec nodes f.dotMap,
        stderr := f.output,
        events := [Event.parseStdin (ascii "stdin"), Event.execute] } := by
  obtain ⟨t, ht, hx⟩ := hL (ascii "stdin") text nodes hn
  have hl : loadTemplate L f.args (text, none) fs =
      ((some t, none), Event.parseStdin (ascii "stdin")) := by
    rw [ha, loadTemplate_stdin]
    simp [parseReader, ht]
  rw [main_of_loaded L prog args (text, none) fs f t hp hh (by rw [hl]), hl, hx]

/-- C7, as stated, fails: with no `-s` flag and the template `{{.foo}}` on stdin the
execution does not fail; the program writes `<no value>` and exits with code 0. -/
theorem C7_missing_key_exits_0 :
    (main TextTemplate.fragmentLib (ascii "texpand") []
      (ascii "\x7b\x7b.foo\x7d\x7d", none) (fun _ => .ok [])).status = ExitStatus.exited 0 ∧
    (main TextTemplate.fragmentLib (ascii "texpand") []
      (ascii "\x7b\x7b.foo\x7d\x7d", none) (fun _ => .ok [])).stdout = ascii "<no value>" := by
  refine ⟨by decide, by decide⟩

/-- C7, amended: given no `-s` flag (an empty key/value map) and the template text
`{{.foo}}` read from stdin, with a library that behaves as `text/template` on literal text
and `{{.key}}` actions, execution succeeds: the absent key is written as `<no value>`,
nothing goes to stderr and the program exits with code 0. -/
theorem C7_missing_key_renders_no_value {T : Type} (L : GoLib T)
    (hL : TextTemplate.Agrees L) (prog : GoString) (fs : FileSystem) :
    main L prog [] (ascii "\x7b\x7b.foo\x7d\x7d", none) fs =
      { status := ExitStatus.exited 0, stdout := ascii "<no value>", stderr := [],
        events := [Event.parseStdin (ascii "stdin"), Event.execute] } := by
  rw [main_stdin_fragment L hL prog [] _ fs
    { FlagSet.init L.quote with args := [] } [TextTemplate.Node.field (ascii "foo")]
    rfl rfl rfl (by decide)]
  rfl

/-- The amended C7 applied to the fragment instance of the library. -/
theorem C7_witness :
    (main TextTemplate.fragmentLib (ascii "sh") []
      (ascii "\x7b\x7b.foo\x7d\x7d", none) (fun _ => .error [])).stdout = ascii "<no value>" :=
  congrArg Outcome.stdout
    (C7_missing_key_renders_no_value TextTemplate.fragmentLib fragmentLib_agrees (ascii "sh")
      (fun _ => .error []))

/-- C8: given the template text `{{.foo}}` on stdin and the single flag `-s foo=bar`, with a
library that behaves as `text/template` on literal text and `{{.key}}` actions, the program
writes exactly the three bytes `bar` to stdout, nothing to stderr, and exits with code 0. -/
theorem C8_foo_bar_output {T : Type} (L : GoLib T) (hL : TextTemplate.Agrees L)
    (prog : GoString) (fs : FileSystem) :
    main L prog [ascii "-s", ascii "foo=bar"] (ascii "\x7b\x7b.foo\x7d\x7d", none) fs =
      { status := ExitStatus.exited 0, stdout := [98, 97, 114], stderr := [],
        events := [Event.parseStdin (ascii "stdin"), Event.execute] } := by
  rw [main_stdin_fragment L hL prog [ascii "-s", ascii "foo=bar"] _ fs
    { FlagSet.init L.quote with
      s := { values := [ascii "foo=bar"], parse := sParse L.quote }
      dotMap := DotMap.empty.set (ascii "foo") (ascii "bar") }
    [TextTemplate.Node.field (ascii "foo")] rfl rfl rfl (by decide)]
  rfl

/-- The theorem of C8 applied to the fragment instance of the library. -/
theorem C8_witness :
    (main TextTemplate.fragmentLib (ascii "texpand") [ascii "-s", ascii "foo=bar"]
      (ascii "\x7b\x7b.foo\x7d\x7d", none) (fun _ => .error [])).stdout = ascii "bar" :=
  congrArg Outcome.stdout
    (C8_foo_bar_output TextTemplate.fragmentLib fragmentLib_agrees (ascii "texpand")
      (fun _ => .error []))

end Texpand
